import Mathlib

/-!
Verification of the Financial Data Platform backend.

This file shallowly embeds the numeric core of the repository
(`backend/app/data_collector.py`, `backend/app/alphavantage_collector.py`,
`backend/app/data_service.py`, `backend/app/utils/calculations.py` and
`backend/app/api/routes.py`) as executable Lean definitions over `ℚ`, and
proves or refutes the frozen specification claims about them.

Floating-point values are modelled as rationals; `NaN`/undefined values are
modelled with `Option`.  The only irrational operation reached by any claim,
the square root inside a standard deviation, is abstracted as an arbitrary
function parameter `sqrtA : ℚ → ℚ`, so every statement proved below holds for
every interpretation of the float square root.
-/

namespace FinPlatform

/-- Round-half-to-even on `ℚ` (the tie-breaking used by Python's built-in
`round` and NumPy's `np.round`). -/
def roundHalfEven (x : ℚ) : ℤ :=
  if x - ⌊x⌋ < 1/2 then ⌊x⌋
  else if 1/2 < x - ⌊x⌋ then ⌊x⌋ + 1
  else if Even ⌊x⌋ then ⌊x⌋ else ⌊x⌋ + 1

/-- Python's `round(x, d)` / pandas `.round(d)`: round to `d` decimal places,
ties to even. -/
def roundTo (d : ℕ) (x : ℚ) : ℚ := (roundHalfEven (x * 10 ^ d) : ℚ) / 10 ^ d

/-- Arithmetic mean of a list (NumPy/pandas `mean`; `0` on the empty list
because `0 / 0 = 0` in `ℚ`, a case never reached by the claims). -/
def mean (l : List ℚ) : ℚ := l.sum / (l.length : ℚ)

/-- The trailing window pandas `rolling(window=w, min_periods=1)` sees at row
`i`: the last `min (i+1) w` elements among the first `i+1`. -/
def pyWindow (xs : List ℚ) (w i : ℕ) : List ℚ := (xs.take (i + 1)).drop (i + 1 - w)

/-- Sample variance with `ddof = 1` (the default of pandas `rolling(...).std`,
squared).  On fewer than two observations pandas produces `NaN`, modelled as
`none`. -/
def sampleVar (l : List ℚ) : Option ℚ :=
  if l.length ≤ 1 then none
  else some ((l.map (fun x => (x - mean l) ^ 2)).sum / ((l.length : ℚ) - 1))

/-- One cleaned OHLCV bar (a row of the cleaned dataframe).  Dates are
abstracted as naturals. -/
structure PriceBar where
  date : ℕ
  openPrice : ℚ
  highPrice : ℚ
  lowPrice : ℚ
  closePrice : ℚ
  volume : ℚ
deriving DecidableEq

/-- The derived-metric columns appended by `DataCollector.calculate_metrics`
(`data_collector.py` lines 120-136; identically
`AlphaVantageCollector.calculate_metrics`, `alphavantage_collector.py` lines
211-225).  `volatility` is `Option` because the rolling sample standard
deviation is `NaN` where fewer than two observations are in the window. -/
structure MetricsRow where
  daily_return : ℚ
  ma7 : ℚ
  ma30 : ℚ
  volatility : Option ℚ
  momentum_score : ℚ
  volume_trend : ℚ
deriving DecidableEq

/-- A default row used only as the out-of-range fallback of `List.getD`. -/
def dummyRow : MetricsRow := { daily_return := 0, ma7 := 0, ma30 := 0,
                               volatility := none, momentum_score := 0, volume_trend := 0 }

/-- The unrounded daily return `(close - open) / open * 100` of one bar
(`data_collector.py` line 120). -/
def rawReturn (b : PriceBar) : ℚ := (b.closePrice - b.openPrice) / b.openPrice * 100

/-- Row `i` of the dataframe produced by `calculate_metrics`.  Mirrors
`data_collector.py` lines 120-136 column by column: `daily_return` is rounded
to 4 places; `ma7`/`ma30` are `rolling(w, min_periods=1).mean().round(2)`;
`volatility` is `rolling(20, min_periods=1).std().round(4)` (the standard
deviation is `sqrtA` of the sample variance); `momentum_score` divides by the
already-rounded `ma30` column and is rounded to 2; `volume_trend` divides by
the unrounded rolling mean volume and is rounded to 2. -/
def metricsRowAt (sqrtA : ℚ → ℚ) (bars : List PriceBar) (i : ℕ) : MetricsRow :=
  let closes := bars.map (fun b => b.closePrice)
  let vols := bars.map (fun b => b.volume)
  let rets := bars.map (fun b => roundTo 4 (rawReturn b))
  let ma30 := roundTo 2 (mean (pyWindow closes 30 i))
  let avgVol := mean (pyWindow vols 20 i)
  { daily_return := rets.getD i 0
    ma7 := roundTo 2 (mean (pyWindow closes 7 i))
    ma30 := ma30
    volatility := (sampleVar (pyWindow rets 20 i)).map (fun v => roundTo 4 (sqrtA v))
    momentum_score := roundTo 2 ((closes.getD i 0 - ma30) / ma30 * 100)
    volume_trend := roundTo 2 ((vols.getD i 0 - avgVol) / avgVol * 100) }

/-- `DataCollector.calculate_metrics` / `AlphaVantageCollector.calculate_metrics`:
the list of derived rows, one per input bar. -/
def calculateMetrics (sqrtA : ℚ → ℚ) (bars : List PriceBar) : List MetricsRow :=
  (List.range bars.length).map (metricsRowAt sqrtA bars)

theorem range_map_getD {α : Type} (f : ℕ → α) (n i : ℕ) (d : α) (h : i < n) :
    ((List.range n).map f).getD i d = f i := by
  rw [List.getD_eq_getElem _ _ (by simpa using h)]
  simp

theorem calculateMetrics_length (sqrtA : ℚ → ℚ) (bars : List PriceBar) :
    (calculateMetrics sqrtA bars).length = bars.length := by
  simp [calculateMetrics]

theorem calculateMetrics_getD (sqrtA : ℚ → ℚ) (bars : List PriceBar) (i : ℕ)
    (h : i < bars.length) :
    (calculateMetrics sqrtA bars).getD i dummyRow = metricsRowAt sqrtA bars i :=
  range_map_getD _ _ _ _ h

theorem pyWindow_length (xs : List ℚ) (w i : ℕ) (hi : i < xs.length) :
    (pyWindow xs w i).length = min (i + 1) w := by
  simp only [pyWindow, List.length_drop, List.length_take]
  omega

theorem sampleVar_isSome_iff (l : List ℚ) : (sampleVar l).isSome = true ↔ 2 ≤ l.length := by
  by_cases h : l.length ≤ 1 <;> simp [sampleVar, h] <;> omega

theorem getD_map_of_lt {α β : Type} (f : α → β) (l : List α) (i : ℕ) (h : i < l.length)
    (d1 : β) (d2 : α) : (l.map f).getD i d1 = f (l.getD i d2) := by
  rw [List.getD_eq_getElem _ _ (by simpa using h), List.getD_eq_getElem _ _ h, List.getElem_map]

/-- Evaluation helper: when the scaled value sits strictly below the midpoint,
`roundTo` truncates down. -/
theorem roundTo_eq_of_lt_half {d : ℕ} {x : ℚ} {n : ℤ}
    (h1 : (n : ℚ) ≤ x * 10 ^ d) (h2 : x * 10 ^ d - (n : ℚ) < 1/2) :
    roundTo d x = (n : ℚ) / 10 ^ d := by
  have hf : ⌊x * 10 ^ d⌋ = n := by
    rw [Int.floor_eq_iff]
    exact ⟨h1, by linarith⟩
  unfold roundTo roundHalfEven
  rw [hf, if_pos h2]

/-- Evaluation helper: when the scaled value sits strictly above the midpoint,
`roundTo` rounds up. -/
theorem roundTo_eq_of_gt_half {d : ℕ} {x : ℚ} {n : ℤ}
    (h1 : (n : ℚ) ≤ x * 10 ^ d) (h2 : 1/2 < x * 10 ^ d - (n : ℚ))
    (h3 : x * 10 ^ d < (n : ℚ) + 1) :
    roundTo d x = ((n : ℚ) + 1) / 10 ^ d := by
  have hf : ⌊x * 10 ^ d⌋ = n := by
    rw [Int.floor_eq_iff]
    exact ⟨h1, by linarith⟩
  have hn : ¬ (x * 10 ^ d - (n : ℚ) < 1/2) := by linarith
  unfold roundTo roundHalfEven
  rw [hf, if_neg hn, if_pos h2]
  push_cast
  ring

theorem isSome_map {α β : Type} (f : α → β) (o : Option α) : (o.map f).isSome = o.isSome := by
  cases o <;> rfl

/-- A default bar used only as the out-of-range fallback of `List.getD`. -/
def dummyBar : PriceBar := { date := 0, openPrice := 1, highPrice := 1, lowPrice := 1,
                             closePrice := 1, volume := 1 }

/-- Concrete bar with all prices 1 (zero daily return). -/
def barA : PriceBar := { date := 0, openPrice := 1, highPrice := 1, lowPrice := 1,
                         closePrice := 1, volume := 1 }

/-- Concrete bar with all prices 2. -/
def barB : PriceBar := { date := 1, openPrice := 2, highPrice := 2, lowPrice := 2,
                         closePrice := 2, volume := 1 }

/-- C4 (amended): for every input series and every valid row index `i`, the
`ma7`/`ma30` columns are defined and equal the rounded mean of an expanding
window of exactly `min (i+1) window` observations, the volatility window also
holds `min (i+1) 20` observations, but the volatility value itself (a sample
standard deviation with `ddof = 1`) is defined iff `i ≥ 1`: in particular it is
undefined (`NaN`) at the first row, contrary to the claim as stated. -/
theorem metrics_window_definedness_amended (sqrtA : ℚ → ℚ) (bars : List PriceBar) (i : ℕ)
    (hi : i < bars.length) :
    ((calculateMetrics sqrtA bars).getD i dummyRow).ma7
        = roundTo 2 (mean (pyWindow (bars.map fun b => b.closePrice) 7 i)) ∧
    (pyWindow (bars.map fun b => b.closePrice) 7 i).length = min (i + 1) 7 ∧
    ((calculateMetrics sqrtA bars).getD i dummyRow).ma30
        = roundTo 2 (mean (pyWindow (bars.map fun b => b.closePrice) 30 i)) ∧
    (pyWindow (bars.map fun b => b.closePrice) 30 i).length = min (i + 1) 30 ∧
    (pyWindow (bars.map fun b => roundTo 4 (rawReturn b)) 20 i).length = min (i + 1) 20 ∧
    (((calculateMetrics sqrtA bars).getD i dummyRow).volatility.isSome = true ↔ 1 ≤ i) := by
  rw [calculateMetrics_getD sqrtA bars i hi]
  have h7 := pyWindow_length (bars.map fun b => b.closePrice) 7 i (by simpa using hi)
  have h30 := pyWindow_length (bars.map fun b => b.closePrice) 30 i (by simpa using hi)
  have h20 := pyWindow_length (bars.map fun b => roundTo 4 (rawReturn b)) 20 i (by simpa using hi)
  refine ⟨rfl, h7, rfl, h30, h20, ?_⟩
  show (((sampleVar (pyWindow (bars.map fun b => roundTo 4 (rawReturn b)) 20 i)).map
      (fun v => roundTo 4 (sqrtA v))).isSome = true ↔ 1 ≤ i)
  rw [isSome_map, sampleVar_isSome_iff, h20]
  omega

/-- Witness for C4 at a concrete two-bar series: at row 1 the volatility is
defined. -/
theorem metrics_window_definedness_witness :
    1 < ([barA, barB] : List PriceBar).length ∧
      (((calculateMetrics id [barA, barB]).getD 1 dummyRow).volatility.isSome = true ↔ 1 ≤ 1) :=
  ⟨by norm_num, (metrics_window_definedness_amended id [barA, barB] 1 (by norm_num)).2.2.2.2.2⟩

/-- C4 counterexample: for the one-row series the claim as stated demands a
defined volatility at row 0, but the code produces `NaN` (the rolling sample
standard deviation of a single observation). -/
theorem volatility_first_row_counterexample :
    ((calculateMetrics id [barA]).getD 0 dummyRow).volatility = none := rfl

/-- C5 (amended): in the derived-metrics computation, `daily_return` is rounded
to 4 decimal places and `volatility` is the 4-decimal rounding of the rolling
sample standard deviation (`sqrtA` of the sample variance), while `ma7`, `ma30`,
`momentum_score` and `volume_trend` are all rounded to 2 decimal places
(`momentum_score` moreover divides by the already-rounded `ma30` column). -/
theorem metrics_rounding_amended (sqrtA : ℚ → ℚ) (bars : List PriceBar) (i : ℕ)
    (hi : i < bars.length) :
    ((calculateMetrics sqrtA bars).getD i dummyRow).daily_return
        = roundTo 4 (rawReturn (bars.getD i dummyBar)) ∧
    ((calculateMetrics sqrtA bars).getD i dummyRow).volatility
        = (sampleVar (pyWindow (bars.map fun b => roundTo 4 (rawReturn b)) 20 i)).map
            (fun v => roundTo 4 (sqrtA v)) ∧
    ((calculateMetrics sqrtA bars).getD i dummyRow).ma7
        = roundTo 2 (mean (pyWindow (bars.map fun b => b.closePrice) 7 i)) ∧
    ((calculateMetrics sqrtA bars).getD i dummyRow).ma30
        = roundTo 2 (mean (pyWindow (bars.map fun b => b.closePrice) 30 i)) ∧
    ((calculateMetrics sqrtA bars).getD i dummyRow).momentum_score
        = roundTo 2 (((bars.getD i dummyBar).closePrice
            - roundTo 2 (mean (pyWindow (bars.map fun b => b.closePrice) 30 i)))
            / roundTo 2 (mean (pyWindow (bars.map fun b => b.closePrice) 30 i)) * 100) ∧
    ((calculateMetrics sqrtA bars).getD i dummyRow).volume_trend
        = roundTo 2 (((bars.getD i dummyBar).volume
            - mean (pyWindow (bars.map fun b => b.volume) 20 i))
            / mean (pyWindow (bars.map fun b => b.volume) 20 i) * 100) := by
  rw [calculateMetrics_getD sqrtA bars i hi]
  refine ⟨?_, rfl, rfl, rfl, ?_, ?_⟩
  · show (bars.map fun b => roundTo 4 (rawReturn b)).getD i 0
        = roundTo 4 (rawReturn (bars.getD i dummyBar))
    exact getD_map_of_lt _ _ _ hi _ _
  · show roundTo 2 (((bars.map fun b => b.closePrice).getD i 0
        - roundTo 2 (mean (pyWindow (bars.map fun b => b.closePrice) 30 i)))
        / roundTo 2 (mean (pyWindow (bars.map fun b => b.closePrice) 30 i)) * 100) = _
    rw [getD_map_of_lt (fun b => b.closePrice) bars i hi 0 dummyBar]
  · show roundTo 2 (((bars.map fun b => b.volume).getD i 0
        - mean (pyWindow (bars.map fun b => b.volume) 20 i))
        / mean (pyWindow (bars.map fun b => b.volume) 20 i) * 100) = _
    rw [getD_map_of_lt (fun b => b.volume) bars i hi 0 dummyBar]

/-- Witness for C5 at a concrete series. -/
theorem metrics_rounding_witness :
    0 < ([barA, barB] : List PriceBar).length ∧
      ((calculateMetrics id [barA, barB]).getD 0 dummyRow).daily_return
        = roundTo 4 (rawReturn ([barA, barB].getD 0 dummyBar)) :=
  ⟨by norm_num, (metrics_rounding_amended id [barA, barB] 0 (by norm_num)).1⟩

/-- C5 counterexample: at the two-bar series `[barA, barB]` the emitted
`momentum_score` of row 1 is `33.33` — the 2-decimal rounding of `100/3` —
which differs from the 4-decimal rounding `33.3333` the claim as stated
demands. -/
theorem momentum_rounding_counterexample :
    ((calculateMetrics id [barA, barB]).getD 1 dummyRow).momentum_score = 3333/100 ∧
      (3333/100 : ℚ) ≠ roundTo 4 ((2 - roundTo 2 (mean [1, 2]))
        / roundTo 2 (mean [1, 2]) * 100) := by
  have hmean : mean [1, 2] = 3/2 := by
    simp [mean]
    norm_num
  have hr2 : roundTo 2 ((3:ℚ)/2) = 3/2 := by
    rw [@roundTo_eq_of_lt_half 2 ((3:ℚ)/2) 150 (by norm_num) (by norm_num)]
    norm_num
  have hr4 : roundTo 4 ((100:ℚ)/3) = 333333/10000 := by
    rw [@roundTo_eq_of_lt_half 4 ((100:ℚ)/3) 333333 (by norm_num) (by norm_num)]
    norm_num
  constructor
  · show (metricsRowAt id [barA, barB] 1).momentum_score = 3333/100
    show roundTo 2 (((([barA, barB].map fun b => b.closePrice).getD 1 0)
        - roundTo 2 (mean (pyWindow ([barA, barB].map fun b => b.closePrice) 30 1)))
        / roundTo 2 (mean (pyWindow ([barA, barB].map fun b => b.closePrice) 30 1)) * 100)
        = 3333/100
    have hw : pyWindow ([barA, barB].map fun b => b.closePrice) 30 1 = [1, 2] := by
      simp [pyWindow, barA, barB]
    rw [hw, hmean, hr2]
    have harg : ((2:ℚ) - 3/2) / (3/2) * 100 = 100/3 := by norm_num
    have : (([barA, barB].map fun b => b.closePrice).getD 1 0 : ℚ) = 2 := by
      simp [barA, barB]
    rw [this, harg]
    rw [@roundTo_eq_of_lt_half 2 ((100:ℚ)/3) 3333 (by norm_num) (by norm_num)]
    norm_num
  · rw [hmean, hr2]
    have harg : ((2:ℚ) - 3/2) / (3/2) * 100 = 100/3 := by norm_num
    rw [harg, hr4]
    norm_num

/-- One stored bar as the query endpoints in `routes.py` see it: a `StockData`
database row.  `dailyReturn` is `Option` because the column is nullable. -/
structure StockRow where
  date : ℕ
  highPrice : ℚ
  lowPrice : ℚ
  closePrice : ℚ
  volume : ℚ
  dailyReturn : Option ℚ
deriving DecidableEq

/-- Python truthiness of `d.daily_return`: `None` and `0.0` are falsy, every
other stored value is kept. -/
def truthyReturn (r : StockRow) : Option ℚ :=
  match r.dailyReturn with
  | some v => if v = 0 then none else some v
  | none => none

/-- The list comprehension `[d.daily_return for d in stock_data if d.daily_return]`
shared verbatim by `compare_stocks` (`routes.py` lines 258-259),
`get_stock_summary` (line 178) and `get_technical_indicators` (line 380). -/
def getReturns (rows : List StockRow) : List ℚ := rows.filterMap truthyReturn

/-- The summary endpoint's reported `daily_return`:
`float(returns[-1]) if returns else 0.0` (`routes.py` line 201). -/
def latestReturn (rows : List StockRow) : ℚ := (getReturns rows).getLastD 0

/-- The RSI block of `get_technical_indicators` (`routes.py` lines 383-391),
including the `round(rsi, 2)` applied to the response (line 413):
needs strictly more than 14 return observations, averages the positive and the
negative returns of the last 14, treats `RS` as `100` when the average loss is
not positive, and otherwise defaults to the neutral `50.0`. -/
def rsiFromReturns (rets : List ℚ) : ℚ :=
  if 14 < rets.length then
    let last14 := rets.drop (rets.length - 14)
    let gains := last14.filter (fun r => decide (0 < r))
    let losses := (last14.filter (fun r => decide (r < 0))).map (fun r => |r|)
    let avgGain := if gains.isEmpty then 0 else gains.sum / (gains.length : ℚ)
    let avgLoss := if losses.isEmpty then 0 else losses.sum / (losses.length : ℚ)
    let rs := if 0 < avgLoss then avgGain / avgLoss else 100
    roundTo 2 (100 - 100 / (1 + rs))
  else 50

/-- The RSI the technicals endpoint reports for a stored series. -/
def rsiTech (rows : List StockRow) : ℚ := rsiFromReturns (getReturns rows)

theorem getReturns_ne_zero {rows : List StockRow} {v : ℚ} (h : v ∈ getReturns rows) :
    v ≠ 0 := by
  simp only [getReturns, List.mem_filterMap] at h
  obtain ⟨a, -, ha⟩ := h
  rcases hr : a.dailyReturn with _ | w <;> simp [truthyReturn, hr] at ha
  rcases ha with ⟨hw, hv⟩
  exact hv ▸ hw

theorem getReturns_eq_filter (rows : List StockRow) :
    getReturns rows = (rows.filterMap (fun r => r.dailyReturn)).filter (fun v => !(v == 0)) := by
  induction rows with
  | nil => rfl
  | cons a t ih =>
    show List.filterMap truthyReturn (a :: t) = _
    rw [List.filterMap_cons, List.filterMap_cons]
    rcases hr : a.dailyReturn with _ | w
    · have h1 : truthyReturn a = none := by simp [truthyReturn, hr]
      rw [h1]
      exact ih
    · by_cases hw : w = 0
      · have h1 : truthyReturn a = none := by simp [truthyReturn, hr, hw]
        rw [h1, List.filter_cons, hw]
        simpa using ih
      · have h1 : truthyReturn a = some w := by simp [truthyReturn, hr, hw]
        rw [h1, List.filter_cons]
        have hbw : (!(w == 0)) = true := by simpa using hw
        rw [hbw]
        simpa using ih

theorem getReturns_insert_zero (xs ys : List StockRow) (b : StockRow)
    (hb : b.dailyReturn = some 0 ∨ b.dailyReturn = none) :
    getReturns (xs ++ b :: ys) = getReturns (xs ++ ys) := by
  have hb0 : truthyReturn b = none := by
    rcases hb with h | h <;> simp [truthyReturn, h]
  simp [getReturns, List.filterMap_append, List.filterMap_cons, hb0]

/-- C9: every endpoint-side daily-return sequence is the stored returns with
`None` and exactly-zero values removed by the truthiness test, so inserting a
zero-return bar anywhere changes neither the sequence, nor the technicals RSI
(in particular zero-return days do not count toward its `> 14` observation
minimum), nor the summary's latest daily return. -/
theorem returns_truthiness_filter (rows xs ys : List StockRow) (b : StockRow)
    (hb : b.dailyReturn = some 0 ∨ b.dailyReturn = none) :
    getReturns rows = (rows.filterMap (fun r => r.dailyReturn)).filter (fun v => !(v == 0)) ∧
    getReturns (xs ++ b :: ys) = getReturns (xs ++ ys) ∧
    rsiTech (xs ++ b :: ys) = rsiTech (xs ++ ys) ∧
    latestReturn (xs ++ b :: ys) = latestReturn (xs ++ ys) := by
  have hins := getReturns_insert_zero xs ys b hb
  exact ⟨getReturns_eq_filter rows, hins,
    by simp only [rsiTech, hins], by simp only [latestReturn, hins]⟩

/-- A stored bar carrying a strictly positive daily return. -/
def posRow : StockRow := { date := 0, highPrice := 1, lowPrice := 1, closePrice := 1,
                           volume := 1, dailyReturn := some 1 }

/-- A stored bar carrying a zero daily return (an identical-close day). -/
def zeroRow : StockRow := { date := 0, highPrice := 100, lowPrice := 100, closePrice := 100,
                            volume := 1, dailyReturn := some 0 }

/-- Witness for C9 at a concrete input: appending a zero-return bar leaves the
assembled return sequence unchanged. -/
theorem returns_truthiness_filter_witness :
    (zeroRow.dailyReturn = some 0 ∨ zeroRow.dailyReturn = none) ∧
      getReturns [posRow, zeroRow] = getReturns [posRow] :=
  ⟨Or.inl rfl, (returns_truthiness_filter [] [posRow] [] zeroRow (Or.inl rfl)).2.1⟩

theorem roundTo_rsi_sentinel : roundTo 2 (100 - 100 / (1 + 100) : ℚ) = 9901/100 := by
  have h : (100 - 100 / (1 + 100) : ℚ) = 10000/101 := by norm_num
  rw [h, @roundTo_eq_of_gt_half 2 ((10000:ℚ)/101) 9900 (by norm_num) (by norm_num) (by norm_num)]
  norm_num

/-- C1 (amended): whenever the filtered return sequence of the stored series
has more than 14 observations and its most recent 14 contain no negative
value, the technicals RSI takes the zero-loss branch, treats RS as 100, and
reports `round(100 - 100/(1+100), 2) = 99.01 ≈ 99.0099` — not 100 and not the
neutral 50 default.  (A series of identical consecutive closes does NOT reach
this branch: its zero returns are removed by the truthiness filter, see the
counterexample.) -/
theorem rsi_zero_loss_branch_amended (rows : List StockRow)
    (hlen : 14 < (getReturns rows).length)
    (hpos : ∀ r ∈ (getReturns rows).drop ((getReturns rows).length - 14), ¬ r < 0) :
    rsiTech rows = roundTo 2 (100 - 100 / (1 + 100)) ∧
    rsiTech rows = 9901/100 ∧ (9901/100 : ℚ) ≠ 100 ∧ (9901/100 : ℚ) ≠ 50 := by
  have hfil :
      ((getReturns rows).drop ((getReturns rows).length - 14)).filter
        (fun r => decide (r < 0)) = [] := by
    rw [List.filter_eq_nil_iff]
    intro a ha
    simpa using hpos a ha
  have key : rsiTech rows = roundTo 2 (100 - 100 / (1 + 100)) := by
    unfold rsiTech rsiFromReturns
    rw [if_pos hlen]
    simp only [hfil, List.map_nil, List.isEmpty_nil, if_true, lt_irrefl, if_false]
  refine ⟨key, ?_, by norm_num, by norm_num⟩
  rw [key, roundTo_rsi_sentinel]

/-- The fifteen-bar all-positive-return series used as the C1 witness input. -/
def posRows15 : List StockRow :=
  [posRow, posRow, posRow, posRow, posRow, posRow, posRow, posRow,
   posRow, posRow, posRow, posRow, posRow, posRow, posRow]

/-- Witness for C1: fifteen stored bars with return +1 each give RSI 99.01. -/
theorem rsi_zero_loss_branch_witness :
    14 < (getReturns posRows15).length ∧ rsiTech posRows15 = 9901/100 := by
  have hret : getReturns posRows15 = [1, 1, 1, 1, 1, 1, 1, 1, 1, 1, 1, 1, 1, 1, 1] := by
    simp [getReturns, posRows15, truthyReturn, posRow, List.filterMap_cons]
  have hlen : 14 < (getReturns posRows15).length := by rw [hret]; norm_num
  refine ⟨hlen, (rsi_zero_loss_branch_amended posRows15 hlen ?_).2.1⟩
  intro r hr
  have hm : r ∈ getReturns posRows15 := List.mem_of_mem_drop hr
  rw [hret] at hm
  have : r = 1 := by simpa using hm
  rw [this]
  norm_num

/-- The fourteen-bar identical-close series named by the claim. -/
def zeroRows14 : List StockRow :=
  [zeroRow, zeroRow, zeroRow, zeroRow, zeroRow, zeroRow, zeroRow,
   zeroRow, zeroRow, zeroRow, zeroRow, zeroRow, zeroRow, zeroRow]

/-- C1 counterexample: on 14 identical consecutive closes (zero return each
day) the truthiness filter empties the return sequence, so the endpoint
reports the neutral default 50.0 — not ≈ 99.0099 as the claim asserts. -/
theorem rsi_identical_closes_counterexample :
    rsiTech zeroRows14 = 50 ∧ (50 : ℚ) ≠ roundTo 2 (100 - 100 / (1 + 100)) := by
  constructor
  · have h : getReturns zeroRows14 = [] := by
      simp [getReturns, zeroRows14, truthyReturn, zeroRow, List.filterMap_cons]
    rw [rsiTech, h]
    rfl
  · rw [roundTo_rsi_sentinel]
    norm_num

/-- Provenance tag of a resolved series (`data_service.py` return values
`'alpha_vantage'`, `'database'`, `'yfinance'`). -/
inductive Source
  | alpha_vantage
  | database
  | yfinance
deriving DecidableEq

/-- Outcome of the Alpha Vantage / yfinance adapter call inside its
`try/except`: `Except.error` models a raised exception, `Except.ok none` a
`None` dataframe, `Except.ok (some s)` a dataframe with row list `s`.  The
`if df is not None and not df.empty` guard plus the exception handler reduce
all failure shapes to `none`. -/
def attemptFrame {α : Type} (r : Except Unit (Option (List α))) : Option (List α) :=
  match r with
  | Except.error _ => none
  | Except.ok none => none
  | Except.ok (some s) => if s.isEmpty then none else some s

/-- Outcome of the database adapter call inside its `try/except`: the query
returns a row list and the `if data:` guard keeps only non-empty results. -/
def attemptDb {α : Type} (r : Except Unit (List α)) : Option (List α) :=
  match r with
  | Except.error _ => none
  | Except.ok s => if s.isEmpty then none else some s

/-- Python's `df.tail(days)`: the last `days` rows. -/
def pyTail {α : Type} (s : List α) (days : ℕ) : List α := s.drop (s.length - days)

/-- `DataService.get_stock_data` (`data_service.py` lines 26-89): try the
Alpha Vantage adapter only when enabled, then the persisted store, then the
yfinance adapter; return the first non-empty series tagged with that
adapter's provenance (Alpha Vantage results truncated to the last `days`
rows), or `none` when every attempted adapter failed or was empty. -/
def getStockData {α : Type} (useAV : Bool) (days : ℕ)
    (av : Except Unit (Option (List α))) (db : Except Unit (List α))
    (yf : Except Unit (Option (List α))) : Option (List α × Source) :=
  match (if useAV then attemptFrame av else none) with
  | some s => some (pyTail s days, Source.alpha_vantage)
  | none =>
    match attemptDb db with
    | some s => some (s, Source.database)
    | none =>
      match attemptFrame yf with
      | some s => some (s, Source.yfinance)
      | none => none

theorem attemptFrame_some_ne_nil {α : Type} {r : Except Unit (Option (List α))}
    {s : List α} (h : attemptFrame r = some s) : s ≠ [] := by
  cases r with
  | error e => simp [attemptFrame] at h
  | ok o =>
    cases o with
    | none => simp [attemptFrame] at h
    | some s0 =>
      by_cases he : s0.isEmpty
      · simp [attemptFrame, he] at h
      · simp [attemptFrame, he] at h
        rw [← h]
        simpa [List.isEmpty_iff] using he

theorem attemptDb_some_ne_nil {α : Type} {r : Except Unit (List α)}
    {s : List α} (h : attemptDb r = some s) : s ≠ [] := by
  cases r with
  | error e => simp [attemptDb] at h
  | ok s0 =>
    by_cases he : s0.isEmpty
    · simp [attemptDb, he] at h
    · simp [attemptDb, he] at h
      rw [← h]
      simpa [List.isEmpty_iff] using he

theorem pyTail_ne_nil {α : Type} {s : List α} (hs : s ≠ []) {days : ℕ} (hd : 1 ≤ days) :
    pyTail s days ≠ [] := by
  have hlen : 0 < s.length := List.length_pos.mpr hs
  have h2 : 0 < (pyTail s days).length := by
    simp only [pyTail, List.length_drop]
    omega
  exact List.length_pos.mp h2

/-- C2: the fallback resolver (i) treats a raised exception in any adapter
exactly like an absent result — exceptions never propagate; (ii) tries the
adapters in the fixed order Alpha Vantage (only if enabled), persisted store,
yfinance, stopping at the first non-empty series and tagging it with exactly
that adapter's provenance; (iii) returns `none` iff every adapter in the
chain failed or returned an empty series; and (iv) every resolved series is
non-empty (for a positive day window). -/
theorem fallback_resolver_chain {α : Type} (useAV : Bool) (days : ℕ)
    (av : Except Unit (Option (List α))) (db : Except Unit (List α))
    (yf : Except Unit (Option (List α))) :
    getStockData useAV days (Except.error ()) db yf
        = getStockData useAV days (Except.ok none) db yf ∧
    getStockData useAV days av (Except.error ()) yf
        = getStockData useAV days av (Except.ok []) yf ∧
    getStockData useAV days av db (Except.error ())
        = getStockData useAV days av db (Except.ok none) ∧
    (∀ s, useAV = true → attemptFrame av = some s →
      getStockData useAV days av db yf = some (pyTail s days, Source.alpha_vantage)) ∧
    (∀ s, (if useAV then attemptFrame av else none) = none → attemptDb db = some s →
      getStockData useAV days av db yf = some (s, Source.database)) ∧
    (∀ s, (if useAV then attemptFrame av else none) = none → attemptDb db = none →
      attemptFrame yf = some s →
      getStockData useAV days av db yf = some (s, Source.yfinance)) ∧
    (getStockData useAV days av db yf = none ↔
      (if useAV then attemptFrame av else none) = none ∧ attemptDb db = none ∧
        attemptFrame yf = none) ∧
    (∀ s src, 1 ≤ days → getStockData useAV days av db yf = some (s, src) → s ≠ []) := by
  refine ⟨?_, ?_, ?_, ?_, ?_, ?_, ?_, ?_⟩
  · cases useAV <;> rfl
  · rcases h1 : (if useAV then attemptFrame av else none) with _ | s0 <;>
      simp [getStockData, h1, attemptDb]
  · rcases h1 : (if useAV then attemptFrame av else none) with _ | s0 <;>
      rcases h2 : attemptDb db with _ | s1 <;>
      simp [getStockData, h1, h2, attemptFrame]
  · intro s hAV hav
    subst hAV
    simp [getStockData, hav]
  · intro s h1 h2
    simp [getStockData, h1, h2]
  · intro s h1 h2 h3
    simp [getStockData, h1, h2, h3]
  · rcases h1 : (if useAV then attemptFrame av else none) with _ | s0 <;>
      rcases h2 : attemptDb db with _ | s1 <;>
      rcases h3 : attemptFrame yf with _ | s2 <;>
      simp [getStockData, h1, h2, h3]
  · intro s src hd h
    rcases h1 : (if useAV then attemptFrame av else none) with _ | s0
    · rcases h2 : attemptDb db with _ | s1
      · rcases h3 : attemptFrame yf with _ | s2
        · simp [getStockData, h1, h2, h3] at h
        · simp [getStockData, h1, h2, h3] at h
          exact h.1 ▸ attemptFrame_some_ne_nil h3
      · simp [getStockData, h1, h2] at h
        exact h.1 ▸ attemptDb_some_ne_nil h2
    · simp [getStockData, h1] at h
      have hs0 : attemptFrame av = some s0 := by
        cases useAV with
        | false => simp at h1
        | true => simpa using h1
      exact h.1 ▸ pyTail_ne_nil (attemptFrame_some_ne_nil hs0) hd

/-- Witness for C2: Alpha Vantage enabled but raising, database holding one
row, yfinance absent — the resolver returns the database series tagged
`database`. -/
theorem fallback_resolver_chain_witness :
    ((if true then attemptFrame (Except.error () : Except Unit (Option (List ℕ))) else none)
        = none ∧
      attemptDb (Except.ok [7] : Except Unit (List ℕ)) = some [7]) ∧
    getStockData true 5 (Except.error () : Except Unit (Option (List ℕ)))
      (Except.ok [7]) (Except.ok none) = some ([7], Source.database) :=
  ⟨⟨rfl, rfl⟩,
    (fallback_resolver_chain true 5 (Except.error ()) (Except.ok [7])
      (Except.ok none)).2.2.2.2.1 [7] rfl rfl⟩

/-- The close-price column of a stored series. -/
def closesOf (rows : List StockRow) : List ℚ := rows.map (fun r => r.closePrice)

/-- The comparison endpoint's simple total return
`(data[-1].close - data[0].close) / data[0].close * 100`
(`routes.py` lines 254-255). -/
def totalReturnPct (rows : List StockRow) : ℚ :=
  ((closesOf rows).getLastD 0 - (closesOf rows).headD 0) / (closesOf rows).headD 0 * 100

/-- The comparison endpoint's better-performer selection
`symbol1 if symbol1_return > symbol2_return else symbol2`
(`routes.py` line 271). -/
def betterPerformer (s1 s2 : String) (d1 d2 : List StockRow) : String :=
  if totalReturnPct d2 < totalReturnPct d1 then s1 else s2

/-- C3 (amended): the better performer is `symbol1` exactly when its total
return is strictly greater; on `symbol1_return ≤ symbol2_return` — in
particular on an exact tie — the reported better performer is `symbol2`,
not `symbol1`. -/
theorem better_performer_amended (s1 s2 : String) (d1 d2 : List StockRow) :
    (totalReturnPct d2 < totalReturnPct d1 → betterPerformer s1 s2 d1 d2 = s1) ∧
    (totalReturnPct d1 ≤ totalReturnPct d2 → betterPerformer s1 s2 d1 d2 = s2) ∧
    (totalReturnPct d1 = totalReturnPct d2 → betterPerformer s1 s2 d1 d2 = s2) := by
  refine ⟨?_, ?_, ?_⟩
  · intro h
    rw [betterPerformer, if_pos h]
  · intro h
    rw [betterPerformer, if_neg (not_lt.mpr h)]
  · intro h
    rw [betterPerformer, if_neg (not_lt.mpr (le_of_eq h))]

/-- Witness for C3 at a concrete tie. -/
theorem better_performer_witness :
    totalReturnPct [zeroRow] = totalReturnPct [zeroRow] ∧
      betterPerformer "X" "Y" [zeroRow] [zeroRow] = "Y" :=
  ⟨rfl, (better_performer_amended "X" "Y" [zeroRow] [zeroRow]).2.2 rfl⟩

/-- C3 counterexample: on an exact tie of total returns the endpoint reports
`symbol2`, not `symbol1` as the claim asserts. -/
theorem better_performer_tie_counterexample :
    totalReturnPct [zeroRow] = totalReturnPct [zeroRow] ∧
      betterPerformer "AAA" "BBB" [zeroRow] [zeroRow] = "BBB" ∧ "BBB" ≠ "AAA" := by
  refine ⟨rfl, ?_, by decide⟩
  rw [betterPerformer, if_neg (lt_irrefl _)]

/-- NumPy's default (linear-interpolation) percentile: with the list sorted
ascending, the value at fractional rank `(n-1) * q / 100`, interpolating
between the two neighbouring order statistics. -/
def percentile (q : ℚ) (l : List ℚ) : ℚ :=
  if l.isEmpty then 0
  else
    let s := List.insertionSort (fun a b : ℚ => a ≤ b) l
    let h : ℚ := ((l.length : ℚ) - 1) * q / 100
    let k : ℕ := (⌊h⌋).toNat
    s.getD k 0 + (h - (k : ℚ)) * (s.getD (k + 1) 0 - s.getD k 0)

/-- `calculate_support_resistance` (`calculations.py` lines 185-205): the pair
`(resistance, support)`; the sentinel `(0, 0)` when either input is shorter
than `window`, otherwise the rounded 95th percentile of the trailing `window`
highs and 5th percentile of the trailing `window` lows. -/
def calculate_support_resistance (highs lows : List ℚ) (window : ℕ) : ℚ × ℚ :=
  if highs.length < window ∨ lows.length < window then (0, 0)
  else (roundTo 2 (percentile 95 (highs.drop (highs.length - window))),
        roundTo 2 (percentile 5 (lows.drop (lows.length - window))))

/-- C6 (amended): with at least `window` observations the function returns the
rounded 95th/5th percentiles of the trailing `window` highs/lows; with fewer
it returns the sentinel `(resistance, support) = (0, 0)` — it does NOT fall
back to percentiles of the full series as the claim asserts. -/
theorem support_resistance_amended (highs lows : List ℚ) (window : ℕ) :
    (window ≤ highs.length → window ≤ lows.length →
      calculate_support_resistance highs lows window =
        (roundTo 2 (percentile 95 (highs.drop (highs.length - window))),
         roundTo 2 (percentile 5 (lows.drop (lows.length - window))))) ∧
    (highs.length < window ∨ lows.length < window →
      calculate_support_resistance highs lows window = (0, 0)) := by
  constructor
  · intro h1 h2
    rw [calculate_support_resistance, if_neg (by omega)]
  · intro h
    rw [calculate_support_resistance, if_pos h]

/-- Witness for C6 on a concrete two-element window. -/
theorem support_resistance_witness :
    2 ≤ ([1, 2] : List ℚ).length ∧
      calculate_support_resistance [1, 2] [1, 2] 2 =
        (roundTo 2 (percentile 95 (([1, 2] : List ℚ).drop (([1, 2] : List ℚ).length - 2))),
         roundTo 2 (percentile 5 (([1, 2] : List ℚ).drop (([1, 2] : List ℚ).length - 2)))) :=
  ⟨by norm_num, (support_resistance_amended [1, 2] [1, 2] 2).1 (by norm_num) (by norm_num)⟩

/-- C6 counterexample: on a single-bar series with the default window 20 the
function returns the sentinel `(0, 0)`, while the full-series percentiles the
claim asserts would both be `10`. -/
theorem support_resistance_short_counterexample :
    calculate_support_resistance [10] [10] 20 = (0, 0) ∧
      roundTo 2 (percentile 95 [10]) = 10 ∧ roundTo 2 (percentile 5 [10]) = 10 ∧
      (0 : ℚ) ≠ 10 := by
  have hsort : List.insertionSort (fun a b : ℚ => a ≤ b) [10] = [10] := rfl
  have hp : ∀ q : ℚ, percentile q [10] = 10 := by
    intro q
    have hlen : ((([10] : List ℚ).length : ℚ) - 1) * q / 100 = 0 := by norm_num
    simp [percentile, hlen, hsort]
  have hr : roundTo 2 (10 : ℚ) = 10 := by
    rw [@roundTo_eq_of_lt_half 2 (10 : ℚ) 1000 (by norm_num) (by norm_num)]
    norm_num
  refine ⟨?_, by rw [hp, hr], by rw [hp, hr], by norm_num⟩
  rw [calculate_support_resistance, if_pos (by norm_num)]

/-- Population covariance of two equally long lists, as normalised inside
`np.corrcoef` (the `ddof` convention cancels in the correlation quotient). -/
def covariance (l1 l2 : List ℚ) : ℚ :=
  ((l1.zip l2).map (fun p => (p.1 - mean l1) * (p.2 - mean l2))).sum / (l1.length : ℚ)

/-- Population variance. -/
def variance (l : List ℚ) : ℚ := covariance l l

/-- Result of the correlation block of `compare_stocks` (`routes.py` lines
265-268).  `defaultZero` is the literal `0.0` branch taken when the two return
sequences differ in length or are empty; `pearson cov vx vy` records the
ingredients of `np.corrcoef`, whose entry is `cov / sqrt (vx * vy)` — equal to
`1` exactly when `0 < cov` and `cov ^ 2 = vx * vy`, and NaN when `vx * vy = 0`. -/
inductive CorrOutcome
  | defaultZero
  | pearson (cov vx vy : ℚ)
deriving DecidableEq

/-- The correlation branch selection of `compare_stocks`. -/
def correlationOutcome (r1 r2 : List ℚ) : CorrOutcome :=
  if r1.length = r2.length ∧ 0 < r1.length then
    CorrOutcome.pearson (covariance r1 r2) (variance r1) (variance r2)
  else CorrOutcome.defaultZero

/-- The comparison endpoint's correlation of two stored series (after the
shared truthiness filter on daily returns). -/
def compareCorrelation (d1 d2 : List StockRow) : CorrOutcome :=
  correlationOutcome (getReturns d1) (getReturns d2)

/-- Whether the recorded outcome denotes a Pearson correlation equal to `1`:
`cov / sqrt (vx * vy) = 1` iff `0 < cov` and `cov ^ 2 = vx * vy`. -/
def isPearsonOne : CorrOutcome → Bool
  | CorrOutcome.defaultZero => false
  | CorrOutcome.pearson c vx vy => decide (0 < c) && decide (c ^ 2 = vx * vy)

theorem zip_self {α : Type} (l : List α) : l.zip l = l.map (fun a => (a, a)) := by
  induction l with
  | nil => rfl
  | cons a t ih => simp [List.zip_cons_cons, ih]

theorem variance_eq (l : List ℚ) :
    variance l = (l.map (fun x => (x - mean l) ^ 2)).sum / (l.length : ℚ) := by
  rw [variance, covariance, zip_self, List.map_map]
  have hfun : ((fun p : ℚ × ℚ => (p.1 - mean l) * (p.2 - mean l)) ∘ fun a => (a, a))
      = fun x => (x - mean l) ^ 2 := by
    funext x
    simp [sq]
  rw [hfun]

theorem sum_all_zero_of_nonneg {l : List ℚ} (h0 : ∀ x ∈ l, 0 ≤ x) (hs : l.sum = 0) :
    ∀ x ∈ l, x = 0 := by
  induction l with
  | nil => intro x hx; simp at hx
  | cons a t ih =>
    have hta : 0 ≤ a := h0 a (List.mem_cons_self a t)
    have htt : ∀ x ∈ t, 0 ≤ x := fun x hx => h0 x (List.mem_cons_of_mem a hx)
    have htsum : 0 ≤ t.sum := List.sum_nonneg htt
    rw [List.sum_cons] at hs
    have ha : a = 0 := by linarith
    have ht : t.sum = 0 := by linarith
    intro x hx
    rcases List.mem_cons.mp hx with h | h
    · rw [h, ha]
    · exact ih htt ht x h

theorem variance_nonneg (l : List ℚ) : 0 ≤ variance l := by
  rw [variance_eq]
  apply div_nonneg
  · exact List.sum_nonneg (by
      intro x hx
      obtain ⟨y, -, rfl⟩ := List.mem_map.mp hx
      positivity)
  · positivity

theorem variance_pos {l : List ℚ} {a b : ℚ} (ha : a ∈ l) (hb : b ∈ l) (hab : a ≠ b) :
    0 < variance l := by
  rcases lt_or_eq_of_le (variance_nonneg l) with h | h
  · exact h
  exfalso
  have hn : (0 : ℚ) < (l.length : ℚ) := by
    have := List.length_pos_of_mem ha
    exact_mod_cast this
  have hsum : (l.map (fun x => (x - mean l) ^ 2)).sum = 0 := by
    have hv := variance_eq l
    rw [← h] at hv
    field_simp at hv
    linarith [hv]
  have hall : ∀ x ∈ l, x = mean l := by
    intro x hx
    have := sum_all_zero_of_nonneg (l := l.map (fun x => (x - mean l) ^ 2))
      (by
        intro y hy
        obtain ⟨z, -, rfl⟩ := List.mem_map.mp hy
        positivity) hsum ((x - mean l) ^ 2) (List.mem_map.mpr ⟨x, hx, rfl⟩)
    have hx0 : x - mean l = 0 := by
      exact pow_eq_zero_iff (n := 2) (by norm_num) |>.mp this
    linarith
  exact hab ((hall a ha).trans (hall b hb).symm)

/-- C8 (amended): when the two filtered return sequences have unequal lengths
the comparison takes the literal `0.0` branch; when they are identical and
contain at least two distinct values (hence length ≥ 2 and nonzero variance)
the Pearson correlation is exactly `1`.  For identical CONSTANT sequences the
variance product is `0` and the correlation is NaN, not `1` — see the
counterexample. -/
theorem correlation_amended (d1 d2 : List StockRow) :
    ((getReturns d1).length ≠ (getReturns d2).length →
      compareCorrelation d1 d2 = CorrOutcome.defaultZero) ∧
    (∀ a b, getReturns d1 = getReturns d2 → a ∈ getReturns d1 → b ∈ getReturns d1 → a ≠ b →
      isPearsonOne (compareCorrelation d1 d2) = true) := by
  constructor
  · intro h
    rw [compareCorrelation, correlationOutcome, if_neg]
    intro hc
    exact h hc.1
  · intro a b heq ha hb hab
    have hlen0 : 0 < (getReturns d1).length := List.length_pos_of_mem ha
    have hcorr : compareCorrelation d1 d2 =
        CorrOutcome.pearson (variance (getReturns d1)) (variance (getReturns d1))
          (variance (getReturns d1)) := by
      rw [compareCorrelation, ← heq, correlationOutcome, if_pos ⟨rfl, hlen0⟩]
      rfl
    rw [hcorr]
    simp only [isPearsonOne, Bool.and_eq_true, decide_eq_true_eq]
    exact ⟨variance_pos ha hb hab, by ring⟩

/-- A stored bar carrying daily return 2. -/
def twoRow : StockRow := { date := 0, highPrice := 1, lowPrice := 1, closePrice := 1,
                           volume := 1, dailyReturn := some 2 }

/-- Witness for C8: the identical non-constant return pair `[1, 2]` has
correlation exactly 1. -/
theorem correlation_witness :
    (1 : ℚ) ≠ 2 ∧
      isPearsonOne (compareCorrelation [posRow, twoRow] [posRow, twoRow]) = true := by
  have h1 : getReturns [posRow, twoRow] = [1, 2] := by
    simp [getReturns, truthyReturn, posRow, twoRow, List.filterMap_cons]
  refine ⟨by norm_num, (correlation_amended [posRow, twoRow] [posRow, twoRow]).2 1 2 rfl
    ?_ ?_ (by norm_num)⟩
  · rw [h1]
    simp
  · rw [h1]
    simp

/-- A stored bar carrying daily return 5. -/
def constRow : StockRow := { date := 0, highPrice := 1, lowPrice := 1, closePrice := 1,
                             volume := 1, dailyReturn := some 5 }

/-- C8 counterexample: the identical constant return sequences `[5, 5]` (length
2) give covariance 0 and variance product 0, so `np.corrcoef` evaluates `0/0`
— NaN, not the `1.0` the claim asserts for every identical pair of length ≥ 2. -/
theorem correlation_constant_counterexample :
    getReturns [constRow, constRow] = [5, 5] ∧
      compareCorrelation [constRow, constRow] [constRow, constRow] =
        CorrOutcome.pearson 0 0 0 ∧
      isPearsonOne (CorrOutcome.pearson 0 0 0) = false := by
  have h1 : getReturns [constRow, constRow] = [5, 5] := by
    simp [getReturns, truthyReturn, constRow, List.filterMap_cons]
  have hcov : covariance [5, 5] [5, 5] = 0 := by
    have hm : mean [5, 5] = 5 := by
      norm_num [mean]
    simp [covariance, hm]
  refine ⟨h1, ?_, by simp [isPearsonOne]⟩
  rw [compareCorrelation, h1, correlationOutcome, if_pos ⟨rfl, by norm_num⟩, variance, hcov]

/-- One entry of the movers candidate list (`routes.py` lines 323-329): a
symbol together with its rounded two-bar percent change. -/
structure Mover where
  symbol : String
  change : ℚ
deriving DecidableEq

/-- Candidate construction of `get_top_movers` (`routes.py` lines 310-332):
for each company whose stored series (most recent first) has at least two
bars, the percent change between the two most recent closes. -/
def buildMovers (cs : List (String × List StockRow)) : List Mover :=
  cs.filterMap (fun p =>
    match p.2 with
    | latest :: previous :: _ =>
      some { symbol := p.1,
             change := roundTo 2 ((latest.closePrice - previous.closePrice)
                        / previous.closePrice * 100) }
    | _ => none)

/-- Descending order on percent change, as used by
`movers_data.sort(key=..., reverse=True)`. -/
def moverGE (a b : Mover) : Prop := b.change ≤ a.change

instance : DecidableRel moverGE := fun a b => inferInstanceAs (Decidable (b.change ≤ a.change))

/-- `get_top_movers` result (`routes.py` lines 335-341): sort candidates
descending by change; gainers are the first `limit`, losers the last `limit`
reversed.  The route bounds `limit` to 1..10, for which `l.drop (l.length -
limit)` is exactly the Python slice `l[-limit:]`. -/
def topMovers (limit : ℕ) (cs : List (String × List StockRow)) : List Mover × List Mover :=
  ((List.insertionSort moverGE (buildMovers cs)).take limit,
   ((List.insertionSort moverGE (buildMovers cs)).drop
      ((List.insertionSort moverGE (buildMovers cs)).length - limit)).reverse)

theorem take_drop_overlap {α : Type} (l : List α) (limit : ℕ)
    (h1 : 1 ≤ l.length) (h2 : l.length < 2 * limit) :
    ∃ x, x ∈ l.take limit ∧ x ∈ (l.drop (l.length - limit)).reverse := by
  have hlim : 1 ≤ limit := by omega
  have hin : min limit l.length - 1 < l.length := by omega
  refine ⟨l.get ⟨min limit l.length - 1, hin⟩, ?_, ?_⟩
  · have hlt : min limit l.length - 1 < (l.take limit).length := by
      simp only [List.length_take]
      omega
    have hmem : (l.take limit).get ⟨min limit l.length - 1, hlt⟩ ∈ l.take limit :=
      List.get_mem _ _ hlt
    have heq : (l.take limit).get ⟨min limit l.length - 1, hlt⟩
        = l.get ⟨min limit l.length - 1, hin⟩ := by
      simp [List.get_eq_getElem, List.getElem_take]
    rwa [heq] at hmem
  · rw [List.mem_reverse]
    have hlt2 : min limit l.length - 1 - (l.length - limit)
        < (l.drop (l.length - limit)).length := by
      simp only [List.length_drop]
      omega
    have hmem : (l.drop (l.length - limit)).get
        ⟨min limit l.length - 1 - (l.length - limit), hlt2⟩ ∈ l.drop (l.length - limit) :=
      List.get_mem _ _ hlt2
    have heq : (l.drop (l.length - limit)).get
        ⟨min limit l.length - 1 - (l.length - limit), hlt2⟩
        = l.get ⟨min limit l.length - 1, hin⟩ := by
      simp only [List.get_eq_getElem, List.getElem_drop]
      have hidx : l.length - limit + (min limit l.length - 1 - (l.length - limit))
          = min limit l.length - 1 := by omega
      simp only [hidx]
    rwa [heq] at hmem

/-- C10 (amended): the number of candidates equals the number of companies
with at least two stored bars; whenever that number is at least 1 and less
than `2 * limit`, the gainers and losers lists share an element.  (With zero
candidates both lists are empty and do not overlap, so the lower bound is
necessary — see the counterexample.) -/
theorem top_movers_overlap_amended (limit : ℕ) (cs : List (String × List StockRow)) :
    (buildMovers cs).length = (cs.filter (fun p => decide (2 ≤ p.2.length))).length ∧
    (1 ≤ (buildMovers cs).length → (buildMovers cs).length < 2 * limit →
      ∃ m, m ∈ (topMovers limit cs).1 ∧ m ∈ (topMovers limit cs).2) := by
  constructor
  · induction cs with
    | nil => rfl
    | cons p t ih =>
      rcases p with ⟨sym, bars⟩
      rcases bars with _ | ⟨x, _ | ⟨y, rest⟩⟩
      · simpa [buildMovers, List.filterMap_cons, List.filter_cons] using ih
      · simpa [buildMovers, List.filterMap_cons, List.filter_cons] using ih
      · simpa [buildMovers, List.filterMap_cons, List.filter_cons] using ih
  · intro hlen hlt
    have hslen : (List.insertionSort moverGE (buildMovers cs)).length
        = (buildMovers cs).length := (List.perm_insertionSort moverGE (buildMovers cs)).length_eq
    obtain ⟨x, hx1, hx2⟩ := take_drop_overlap (List.insertionSort moverGE (buildMovers cs))
      limit (by omega) (by omega)
    exact ⟨x, hx1, hx2⟩

/-- A stored bar with the given close price. -/
def mkRow (c : ℚ) : StockRow := { date := 0, highPrice := c, lowPrice := c, closePrice := c,
                                  volume := 1, dailyReturn := none }

/-- Three candidate companies with two bars each: changes +5%, -3%, +1%. -/
def cs3 : List (String × List StockRow) :=
  [("A", [mkRow 105, mkRow 100]), ("B", [mkRow 97, mkRow 100]), ("C", [mkRow 101, mkRow 100])]

/-- Witness for C10: three candidates and limit 2 make the gainers and losers
lists overlap. -/
theorem top_movers_overlap_witness :
    1 ≤ (buildMovers cs3).length ∧ (buildMovers cs3).length < 2 * 2 ∧
      ∃ m, m ∈ (topMovers 2 cs3).1 ∧ m ∈ (topMovers 2 cs3).2 :=
  ⟨by decide, by decide, (top_movers_overlap_amended 2 cs3).2 (by decide) (by decide)⟩

/-- C10 counterexample: with a single candidate company holding only one
stored bar there are zero candidates, `0 < 2 · limit` holds, yet gainers and
losers are both empty, so they do not overlap and the claim's unrestricted
'whenever' fails. -/
theorem top_movers_empty_counterexample :
    (buildMovers [("A", [zeroRow])]).length = 0 ∧ (0 : ℕ) < 2 * 1 ∧
      topMovers 1 [("A", [zeroRow])] = ([], []) ∧
      ¬ (∃ m, m ∈ (topMovers 1 [("A", [zeroRow])]).1 ∧
          m ∈ (topMovers 1 [("A", [zeroRow])]).2) := by
  have ht : topMovers 1 [("A", [zeroRow])] = ([], []) := rfl
  refine ⟨rfl, by norm_num, ht, ?_⟩
  rintro ⟨m, hm1, -⟩
  rw [ht] at hm1
  simp at hm1

/-- A raw source bar before cleaning: every value field may be missing
(`NaN`).  The date is the dataframe index and is always present. -/
structure RawBar where
  date : ℕ
  openPrice : Option ℚ
  highPrice : Option ℚ
  lowPrice : Option ℚ
  closePrice : Option ℚ
  volume : Option ℚ
deriving DecidableEq

/-- Keep a present value, otherwise take the carried fill value. -/
def fillOpt (o c : Option ℚ) : Option ℚ :=
  match o with
  | some v => some v
  | none => c

/-- Fill the missing fields of `b` from the running carry `c` (one step of
column-wise `df.ffill()`). -/
def fillFrom (c b : RawBar) : RawBar :=
  { date := b.date
    openPrice := fillOpt b.openPrice c.openPrice
    highPrice := fillOpt b.highPrice c.highPrice
    lowPrice := fillOpt b.lowPrice c.lowPrice
    closePrice := fillOpt b.closePrice c.closePrice
    volume := fillOpt b.volume c.volume }

/-- The all-missing carry used before the first row. -/
def emptyCarry : RawBar := { date := 0, openPrice := none, highPrice := none,
                             lowPrice := none, closePrice := none, volume := none }

def ffillGo : RawBar → List RawBar → List RawBar
  | _, [] => []
  | c, b :: rest => fillFrom c b :: ffillGo (fillFrom c b) rest

/-- `df.ffill()`: forward-fill each column from the preceding rows. -/
def ffill (l : List RawBar) : List RawBar := ffillGo emptyCarry l

/-- `df.bfill()`: backward-fill, i.e. forward-fill the reversed frame. -/
def bfill (l : List RawBar) : List RawBar := (ffill l.reverse).reverse

/-- Whether a row has every required field present (no `NaN`). -/
def allFields (b : RawBar) : Bool :=
  b.openPrice.isSome && b.highPrice.isSome && b.lowPrice.isSome &&
    b.closePrice.isSome && b.volume.isSome

/-- `df.dropna()`: drop rows still containing a missing field. -/
def dropna (l : List RawBar) : List RawBar := l.filter allFields

/-- `df.drop_duplicates(subset=['date'], keep='last')`: keep, in order, each
row whose date does not recur later. -/
def dedupeKeepLast : List RawBar → List RawBar
  | [] => []
  | b :: rest =>
    if rest.any (fun x => x.date == b.date) then dedupeKeepLast rest
    else b :: dedupeKeepLast rest

/-- Date order used by `df.sort_values('date')`. -/
def dateLE (a b : RawBar) : Prop := a.date ≤ b.date

instance : DecidableRel dateLE := fun a b => Nat.decLe a.date b.date

instance : IsTotal RawBar dateLE := ⟨fun a b => Nat.le_total a.date b.date⟩

instance : IsTrans RawBar dateLE := ⟨fun _ _ _ hab hbc => Nat.le_trans hab hbc⟩

/-- `DataCollector.clean_data` (`data_collector.py` lines 61-102) and
`AlphaVantageCollector.clean_data` (`alphavantage_collector.py` lines
184-201): forward-fill, back-fill, drop rows with missing fields,
date-deduplicate keeping the arrival-latest row, sort ascending by date.
After deduplication the dates are distinct, so the (unstable) pandas sort has
a unique result, modelled by insertion sort. -/
def normalize (l : List RawBar) : List RawBar :=
  List.insertionSort dateLE (dedupeKeepLast (dropna (bfill (ffill l))))

theorem fillOpt_of_isSome {o c : Option ℚ} (h : o.isSome = true) : fillOpt o c = o := by
  cases o
  · simp at h
  · rfl

theorem fillFrom_of_allFields (c : RawBar) {b : RawBar} (h : allFields b = true) :
    fillFrom c b = b := by
  obtain ⟨d, o1, o2, o3, o4, o5⟩ := b
  simp only [allFields, Bool.and_eq_true] at h
  obtain ⟨⟨⟨⟨h1, h2⟩, h3⟩, h4⟩, h5⟩ := h
  simp [fillFrom, fillOpt_of_isSome h1, fillOpt_of_isSome h2, fillOpt_of_isSome h3,
    fillOpt_of_isSome h4, fillOpt_of_isSome h5]

theorem ffillGo_of_allFields {l : List RawBar} (h : ∀ b ∈ l, allFields b = true)
    (c : RawBar) : ffillGo c l = l := by
  induction l generalizing c with
  | nil => rfl
  | cons b rest ih =>
    have hb : allFields b = true := h b (List.mem_cons_self b rest)
    show fillFrom c b :: ffillGo (fillFrom c b) rest = b :: rest
    rw [fillFrom_of_allFields c hb, ih (fun x hx => h x (List.mem_cons_of_mem b hx)) b]

theorem ffill_of_allFields {l : List RawBar} (h : ∀ b ∈ l, allFields b = true) :
    ffill l = l :=
  ffillGo_of_allFields h emptyCarry

theorem bfill_of_allFields {l : List RawBar} (h : ∀ b ∈ l, allFields b = true) :
    bfill l = l := by
  rw [bfill, ffill_of_allFields (fun b hb => h b (List.mem_reverse.mp hb)),
    List.reverse_reverse]

theorem dropna_of_allFields {l : List RawBar} (h : ∀ b ∈ l, allFields b = true) :
    dropna l = l :=
  List.filter_eq_self.mpr h

theorem dedupe_sublist (l : List RawBar) : (dedupeKeepLast l).Sublist l := by
  induction l with
  | nil => exact List.Sublist.refl []
  | cons b rest ih =>
    show (if rest.any (fun x => x.date == b.date) then dedupeKeepLast rest
      else b :: dedupeKeepLast rest).Sublist (b :: rest)
    by_cases hany : rest.any (fun x => x.date == b.date)
    · rw [if_pos hany]
      exact ih.trans (List.sublist_cons_self b rest)
    · rw [if_neg hany]
      exact List.Sublist.cons₂ b ih

theorem dedupe_nodup (l : List RawBar) :
    (List.map (fun b => b.date) (dedupeKeepLast l)).Nodup := by
  induction l with
  | nil => exact List.nodup_nil
  | cons b rest ih =>
    rw [show dedupeKeepLast (b :: rest)
      = if rest.any (fun x => x.date == b.date) then dedupeKeepLast rest
        else b :: dedupeKeepLast rest from rfl]
    by_cases hany : rest.any (fun x => x.date == b.date)
    · rw [if_pos hany]
      exact ih
    · rw [if_neg hany, List.map_cons, List.nodup_cons]
      refine ⟨?_, ih⟩
      intro hmem
      obtain ⟨x, hx, hdx⟩ := List.mem_map.mp hmem
      have hxrest : x ∈ rest := (dedupe_sublist rest).subset hx
      exact hany (List.any_eq_true.mpr ⟨x, hxrest, by simp [hdx]⟩)

theorem dedupe_of_nodup {l : List RawBar} (h : (l.map (fun b => b.date)).Nodup) :
    dedupeKeepLast l = l := by
  induction l with
  | nil => rfl
  | cons b rest ih =>
    rw [List.map_cons, List.nodup_cons] at h
    have hany : ¬ (rest.any (fun x => x.date == b.date) = true) := by
      intro hcontra
      obtain ⟨x, hx, hdx⟩ := List.any_eq_true.mp hcontra
      exact h.1 (List.mem_map.mpr ⟨x, hx, by simpa using hdx⟩)
    rw [show dedupeKeepLast (b :: rest)
      = if rest.any (fun x => x.date == b.date) then dedupeKeepLast rest
        else b :: dedupeKeepLast rest from rfl]
    rw [if_neg hany, ih h.2]

/-- C7: the normalizer is idempotent — a series that has already been
forward/back-filled, purged of rows with missing required fields,
date-deduplicated keeping the arrival-latest duplicate, and sorted ascending
by date is a fixed point of the normalizer. -/
theorem normalize_idempotent (l : List RawBar) : normalize (normalize l) = normalize l := by
  have hall : ∀ b ∈ normalize l, allFields b = true := by
    intro b hb
    have hb1 : b ∈ dedupeKeepLast (dropna (bfill (ffill l))) :=
      (List.perm_insertionSort dateLE _).subset hb
    have hb2 : b ∈ dropna (bfill (ffill l)) := (dedupe_sublist _).subset hb1
    exact (List.mem_filter.mp hb2).2
  have hnodup : ((normalize l).map (fun b => b.date)).Nodup := by
    have hperm : (normalize l).Perm (dedupeKeepLast (dropna (bfill (ffill l)))) :=
      List.perm_insertionSort dateLE _
    exact (hperm.map (fun b => b.date)).nodup_iff.mpr (dedupe_nodup _)
  have hsorted : List.Sorted dateLE (normalize l) := List.sorted_insertionSort dateLE _
  show List.insertionSort dateLE
      (dedupeKeepLast (dropna (bfill (ffill (normalize l))))) = normalize l
  rw [ffill_of_allFields hall, bfill_of_allFields hall, dropna_of_allFields hall,
    dedupe_of_nodup hnodup, hsorted.insertionSort_eq]

end FinPlatform
